import Mathlib

/-!
Verification development for the xy_dingtalk Odoo add-on.

The definitions below are shallow embeddings of the Python code in
src/common/ding_request.py, src/common/utils.py, src/models/department.py
and src/models/employee.py.  Machine-level details:

* Python dictionaries whose keys may be missing are embedded as structures
  with Option fields; a lookup of a missing key is an explicit keyError value.
* Fallible Python code (raise) is embedded as Except.
* The asynchronous fan-out in Department.get_ding_server_depart_tree is
  embedded as a function parameterised by an explicit completion schedule:
  at each fan-out the schedule determines the order in which the sibling
  tasks finish, which is the order in which they append to the shared list.
-/

/- ===================================================================
   Credential cache (claim C1).

   src/common/ding_request.py imports TokenStore from
   src/common/store/token_store.py, a file of this repository that is not
   under src/.  The store itself is therefore modelled from the spec; the
   functions refresh_token and latest_token are translated from the source.
   =================================================================== -/

/-- Modelled from the spec: the Credential Cache of section 4.1 and the
Credential data model of section 3 (the file src/common/store/token_store.py
is missing from src/).  It holds one optional credential, a token string
paired with an absolute expiry timestamp. -/
structure TokenStore where
  cred : Option (String × Nat)

/-- Modelled from the spec: get returns the cached credential only while
unexpired (a credential is usable if and only if now is strictly before
expires_at); otherwise it returns absent. -/
def TokenStore.get (s : TokenStore) (now : Nat) : Option String :=
  match s.cred with
  | none => none
  | some (tok, expiresAt) => if now < expiresAt then some tok else none

/-- Modelled from the spec: save overwrites the cache unconditionally with
the new token and an expiry of now plus expires_in seconds. -/
def TokenStore.save (_s : TokenStore) (tok : String) (expiresIn now : Nat) : TokenStore :=
  { cred := some (tok, now + expiresIn) }

/-- DingRequest.refresh_token (src/common/ding_request.py lines 51-59):
read the store; if no (unexpired) token is cached, perform the
authentication exchange and save its result.  The exchange is a parameter
(token string and expires_in seconds); the second component of the result
counts how many exchanges the call performed. -/
def refresh_token (s : TokenStore) (now : Nat) (exchange : String × Nat) :
    TokenStore × Nat :=
  match s.get now with
  | some _ => (s, 0)
  | none => (s.save exchange.1 exchange.2 now, 1)

/-- DingRequest.latest_token (src/common/ding_request.py lines 61-67):
refresh, then read the store again. -/
def latest_token (s : TokenStore) (now : Nat) (exchange : String × Nat) :
    Option String × TokenStore × Nat :=
  let r := refresh_token s now exchange
  (r.1.get now, r)

/- ===================================================================
   delete_custom_oa_template and the cleanRunningTask field (claim C9).
   =================================================================== -/

/-- A Python value as far as the comparison clean_running_task == 'false'
is concerned: strings, booleans, integers and None.  Python equality is
heterogeneous; only the listed numeric cross-type comparisons succeed. -/
inductive PyVal where
  | pystr (s : String)
  | pybool (b : Bool)
  | pyint (n : Int)
  | pynone
  deriving DecidableEq

/-- Python equality on PyVal: strings compare with strings, booleans and
integers compare numerically (True equals 1, False equals 0), None only
equals None, and every string-to-non-string comparison is False. -/
def pyEq : PyVal → PyVal → Bool
  | .pystr a, .pystr b => a == b
  | .pybool a, .pybool b => a == b
  | .pyint a, .pyint b => a == b
  | .pybool a, .pyint b => (if a then (1 : Int) else 0) == b
  | .pyint a, .pybool b => a == (if b then (1 : Int) else 0)
  | .pynone, .pynone => true
  | _, _ => false

/-- The cleanRunningTask request field computed by
DingRequest.delete_custom_oa_template (src/common/ding_request.py line 344):
False if clean_running_task == 'false' else True. -/
def cleanRunningTaskField (clean_running_task : PyVal) : Bool :=
  if pyEq clean_running_task (.pystr "false") then false else true

/- ===================================================================
   send_list_to_str and list_to_str (claim C10).
   =================================================================== -/

/-- send_list_to_str (src/models/employee.py lines 8-16): None maps to
None, a list maps to its elements joined with a comma. -/
def send_list_to_str : Option (List String) → Option String
  | none => none
  | some l => some (String.intercalate "," l)

/-- list_to_str (src/common/utils.py lines 28-37): None maps to None, a
list maps to its elements joined with join_str. -/
def list_to_str (target_list : Option (List String)) (join_str : String) :
    Option String :=
  match target_list with
  | none => none
  | some l => some (String.intercalate join_str l)

/- ===================================================================
   Paginated member listing (claim C2).

   Employee.sync_ding_user (src/models/employee.py lines 77-91) fetches the
   first page at cursor 0, then loops: while the last page carried a
   next_cursor, fetch the page at that cursor and extend the accumulated
   list with its items.  The remote server is embedded as a function from
   cursors to pages; the while loop is embedded with fuel, returning none
   when the fuel is exhausted (where the Python loop would still be
   running).
   =================================================================== -/

/-- One page of a paginated member listing as returned by
DingRequest.department_users: the field list of the response result and its
optional next_cursor. -/
structure MemberPage (α : Type) where
  items : List α
  next_cursor : Option Nat

/-- The while loop of Employee.sync_ding_user (src/models/employee.py
lines 87-90): while next_cursor is not None, fetch at that cursor, take the
new next_cursor and extend the accumulator with the page items. -/
def fetch_loop (fetch : Nat → MemberPage α) :
    Nat → Option Nat → List α → Option (List α)
  | _, none, acc => some acc
  | 0, some _, _ => none
  | fuel + 1, some c, acc =>
    let p := fetch c
    fetch_loop fetch fuel p.next_cursor (acc ++ p.items)

/-- The full-member listing of Employee.sync_ding_user (src/models/employee.py
lines 82-90): fetch the page at cursor 0, seed the accumulator with its
items, then run the while loop from its next_cursor. -/
def sync_ding_user_members (fetch : Nat → MemberPage α) (fuel : Nat) :
    Option (List α) :=
  let p0 := fetch 0
  fetch_loop fetch fuel p0.next_cursor p0.items

/-- The server serves exactly the page sequence ps starting at cursor c:
each page is what fetch returns at the current cursor, every page but the
last carries the next cursor, and the last page has no next_cursor. -/
inductive ServesFrom (fetch : Nat → MemberPage α) : Nat → List (MemberPage α) → Prop where
  | last (c : Nat) (p : MemberPage α) :
      fetch c = p → p.next_cursor = none → ServesFrom fetch c [p]
  | step (c : Nat) (p : MemberPage α) (c' : Nat) (ps : List (MemberPage α)) :
      fetch c = p → p.next_cursor = some c' → ServesFrom fetch c' ps →
      ServesFrom fetch c (p :: ps)

/-- The paginated server used as the concrete three-page instance of
claim C2: cursor 0 serves members 0-99 and points at cursor 100, cursor
100 serves members 100-199 and points at cursor 200, cursor 200 serves
members 200-236 and carries no next_cursor. -/
def threePageFetch : Nat → MemberPage Nat
  | 0 => ⟨List.range 100, some 100⟩
  | 100 => ⟨(List.range 100).map (100 + ·), some 200⟩
  | 200 => ⟨(List.range 37).map (200 + ·), none⟩
  | _ => ⟨[], none⟩

/- ===================================================================
   Department tree fetch (claims C3 and C4).

   Department.get_ding_server_depart_tree (src/models/department.py lines
   18-44) starts one task per requested department id; each task fetches
   the subtree ids of its department, recursively builds that subtree, and
   only then appends its node to the shared list tree; asyncio.gather waits
   for all tasks and propagates the first exception.  The nondeterministic
   network timing is embedded as an explicit schedule: at each fan-out,
   sched applied to the list of sibling ids yields the order (by position)
   in which the sibling tasks complete, which is the order in which they
   append to the shared list.  normPerm turns an arbitrary schedule value
   into a genuine permutation of positions, so every schedule corresponds
   to a possible completion order and every completion order to a schedule.
   Recursion depth is bounded by fuel; the Python code would not terminate
   on the inputs where the fuel runs out.
   =================================================================== -/

/-- A node of the department id tree built by
Department.get_ding_server_depart_tree: the dictionary with keys id and
children appended by _append_to_tree. -/
structure DNode where
  id : Nat
  children : List DNode

/-- Normalise a schedule value into a permutation of the positions
0..n-1: keep the in-range entries in order, drop duplicates, and append
the positions that were not mentioned. -/
def normPerm (σ : List Nat) (n : Nat) : List Nat :=
  let pre := (σ.filter (· < n)).dedup
  pre ++ (List.range n).filter (fun i => i ∉ pre)

/-- Reorder a list by a (normalised) schedule: the element at each listed
position, in schedule order. -/
def permuteBy (σ : List Nat) (l : List α) : List α :=
  (normPerm σ l.length).filterMap l.get?

/-- The schedule under which sibling tasks complete in creation order,
which is the order of the for loop over dep_ids. -/
def creationOrderSched : List Nat → List Nat := fun _ => []

/-- The schedule under which sibling tasks complete in reverse creation
order. -/
def reversedSched : List Nat → List Nat := fun deps => (List.range deps.length).reverse

/-- Department.get_ding_server_depart_tree (src/models/department.py lines
18-44) with an error-free subtree-id fetch: for each dep_id a task fetches
listsub dep_id, recursively builds the subtree, and appends its node to the
shared list; the appends happen in completion order, given by the
schedule. -/
def get_ding_server_depart_tree (listsub : Nat → List Nat)
    (sched : List Nat → List Nat) : Nat → List Nat → List DNode
  | 0, _ => []
  | fuel + 1, dep_ids =>
    permuteBy (sched dep_ids)
      (dep_ids.map (fun d =>
        ⟨d, get_ding_server_depart_tree listsub sched fuel (listsub d)⟩))

/-- The tree builder as the spec describes it (spec section 4.1
build_tree): nodes are assembled in the originally requested order at
every level.  This is the reference the concurrent function is compared
with. -/
def build_tree_seq (listsub : Nat → List Nat) : Nat → List Nat → List DNode
  | 0, _ => []
  | fuel + 1, dep_ids =>
    dep_ids.map (fun d => ⟨d, build_tree_seq listsub fuel (listsub d)⟩)

/-- The example of the spec: department 1 (A) has children 3 and 4 (A1 and
A2) and department 2 (B) has no children. -/
def exampleListsub : Nat → List Nat
  | 1 => [3, 4]
  | _ => []

/-- asyncio.gather over already-ordered task results: it returns the first
exception raised, in completion order, and succeeds only when every task
succeeded. -/
def gatherE : List (Except String α) → Except String (List α)
  | [] => .ok []
  | .error e :: _ => .error e
  | .ok a :: rest => (gatherE rest).map (a :: ·)

/-- Department.get_ding_server_depart_tree with a fallible subtree-id
fetch: each task binds the fetch of its department and its recursive
subtree; gather propagates the first error in completion order, and the
locally accumulated list is discarded on error. -/
def get_ding_server_depart_treeE (listsub : Nat → Except String (List Nat))
    (sched : List Nat → List Nat) : Nat → List Nat → Except String (List DNode)
  | 0, _ => .ok []
  | fuel + 1, dep_ids =>
    gatherE (permuteBy (sched dep_ids)
      (dep_ids.map (fun d =>
        match listsub d with
        | .error e => .error e
        | .ok sub =>
          match get_ding_server_depart_treeE listsub sched fuel sub with
          | .error e => .error e
          | .ok children => .ok ⟨d, children⟩)))

/-- A result is a success or carries the one error e of interest. -/
def okOrE (e : String) (r : Except String α) : Prop :=
  (∃ a, r = .ok a) ∨ r = .error e

/-- The build_tree traversal within the given fuel reaches a node whose
child-listing fetch raises e: either the listing of one of the requested
departments itself raises, or its listing succeeds and the failure occurs
in the recursive fan-out over its children. -/
inductive FetchFails (listsub : Nat → Except String (List Nat)) (e : String) :
    Nat → List Nat → Prop where
  | here (fuel : Nat) (deps : List Nat) (d : Nat) :
      d ∈ deps → listsub d = .error e → FetchFails listsub e (fuel + 1) deps
  | deeper (fuel : Nat) (deps : List Nat) (d : Nat) (sub : List Nat) :
      d ∈ deps → listsub d = .ok sub → FetchFails listsub e fuel sub →
      FetchFails listsub e (fuel + 1) deps

/-- The walk of Department.sync_ding_department over a built tree, its
inner _sync_dep (src/models/department.py lines 67-93): for each leaf a
task fetches the node detail (department_detail) and, when the leaf has
children, gathers the recursive walk over them; at each level the tasks
are gathered, the first error in completion order propagating.  The ORM
writes and the member sync between the detail fetch and the recursion are
external collaborators and omitted; the detail result itself is
opaque. -/
def sync_dep_list (detail : Nat → Except String Unit)
    (sched : List Nat → List Nat) : Nat → List DNode → Except String Unit
  | 0, _ => .ok ()
  | fuel + 1, leaves =>
    match gatherE (permuteBy (sched (leaves.map DNode.id))
        (leaves.map (fun leaf =>
          match detail leaf.id with
          | .error e2 => .error e2
          | .ok _ =>
            if 0 < leaf.children.length then
              sync_dep_list detail sched fuel leaf.children
            else .ok ()))) with
    | .error e2 => .error e2
    | .ok _ => .ok ()

/-- Department.sync_ding_department (src/models/department.py lines
46-98): build the department id tree from the authorized roots with
get_ding_server_depart_tree, then walk it with _sync_dep; an error raised
in either phase propagates and fails the whole call. -/
def sync_ding_department (listsub : Nat → Except String (List Nat))
    (detail : Nat → Except String Unit) (sched : List Nat → List Nat)
    (fuel : Nat) (authed_dept : List Nat) : Except String Unit :=
  match get_ding_server_depart_treeE listsub sched fuel authed_dept with
  | .error e2 => .error e2
  | .ok tree => sync_dep_list detail sched fuel tree

/-- The sync walk within the given fuel reaches a leaf whose node-detail
fetch raises e: either the detail of a leaf at this level raises, or its
detail succeeds and the failure occurs in the walk over its children. -/
inductive DetailFails (detail : Nat → Except String Unit) (e : String) :
    Nat → List DNode → Prop where
  | here (fuel : Nat) (leaves : List DNode) (leaf : DNode) :
      leaf ∈ leaves → detail leaf.id = .error e →
      DetailFails detail e (fuel + 1) leaves
  | deeper (fuel : Nat) (leaves : List DNode) (leaf : DNode) :
      leaf ∈ leaves → detail leaf.id = .ok () →
      DetailFails detail e fuel leaf.children →
      DetailFails detail e (fuel + 1) leaves

/-- A concrete fallible fetch: department 1 lists the single child 2, and
the child listing of department 2 raises; every other listing succeeds
with no children. -/
def failingListsubE : Nat → Except String (List Nat)
  | 1 => .ok [2]
  | 2 => .error "boom"
  | _ => .ok []

/-- A concrete fallible detail fetch: the node detail of department 3
raises, every other detail succeeds. -/
def failingDetail : Nat → Except String Unit
  | 3 => .error "dead"
  | _ => .ok ()

/- ===================================================================
   Error detection conventions (claim C5).

   Responses are embedded as structures of optional fields; a Python
   dictionary lookup of a missing key is a keyError, dict.get of a missing
   key is none.
   =================================================================== -/

/-- A Python-level failure: an explicit raise Exception with a message, or
a KeyError from looking up a missing dictionary key. -/
inductive PyErr where
  | exc (msg : String)
  | keyError (key : String)
  deriving DecidableEq

/-- A legacy-endpoint response envelope: the errcode and errmsg fields,
each possibly missing. -/
structure LegacyResponse where
  errcode : Option Int
  errmsg : Option String
  deriving DecidableEq

/-- check_response_error (src/common/ding_request.py lines 21-23) at the
default arguments error_code 0, error_msg_key errmsg: look up errcode (a
missing key raises KeyError); when it differs from 0, raise Exception with
the errcode and the errmsg (looking up errmsg then, a missing key raising
KeyError); otherwise return normally. -/
def check_response_error (response : LegacyResponse) : Except PyErr Unit :=
  match response.errcode with
  | none => .error (.keyError "errcode")
  | some ec =>
    if ec ≠ 0 then
      match response.errmsg with
      | none => .error (.keyError "errmsg")
      | some m => .error (.exc (toString ec ++ ": " ++ m))
    else .ok ()

/-- A current-endpoint response envelope: the code and message fields,
each possibly missing. -/
structure NewResponse where
  code : Option Int
  message : Option String
  deriving DecidableEq

/-- check_new_response_error (src/common/ding_request.py lines 26-28):
when response.get of the code key is not None, raise Exception with the
message field (a missing message key raising KeyError); otherwise return
normally. -/
def check_new_response_error (response : NewResponse) : Except PyErr Unit :=
  match response.code with
  | none => .ok ()
  | some _ =>
    match response.message with
    | none => .error (.keyError "message")
    | some m => .error (.exc m)

/-- The provider response to the token exchange: the legacy envelope plus
the access_token and expires_in fields, each possibly missing. -/
structure GetTokenResponse where
  errcode : Option Int
  errmsg : Option String
  access_token : Option String
  expires_in : Option Nat

/-- DingRequest.get_token (src/common/ding_request.py lines 127-140): run
check_response_error on the response, then read the access_token and
expires_in fields (a missing key raising KeyError). -/
def get_token (response : GetTokenResponse) : Except PyErr (String × Nat) :=
  match check_response_error ⟨response.errcode, response.errmsg⟩ with
  | .error e => .error e
  | .ok _ =>
    match response.access_token with
    | none => .error (.keyError "access_token")
    | some tok =>
      match response.expires_in with
      | none => .error (.keyError "expires_in")
      | some n => .ok (tok, n)

/- ===================================================================
   Request signature (claim C6).

   get_sign (src/common/ding_request.py lines 10-18) calls the Python
   standard library: hmac.new(key.encode('utf-8'), str(data).encode('utf-8'),
   digestmod='SHA256').digest() then base64.b64encode.  Those library
   primitives are embedded here bit-exactly: SHA-256 per FIPS 180-4 (words
   are Nat reduced mod 2 to the 32), HMAC per RFC 2104 with a 64-byte block,
   base64 per RFC 4648, and the UTF-8 encoding of a string.  The signing
   input is taken as a string, whose Python str() representation is itself.
   =================================================================== -/

def w32 (x : Nat) : Nat := x % 4294967296

def add32 (a b : Nat) : Nat := w32 (a + b)

def rotr32 (n x : Nat) : Nat := w32 ((x >>> n) ||| (x <<< (32 - n)))

def shaCh (x y z : Nat) : Nat := (x &&& y) ^^^ ((x ^^^ 4294967295) &&& z)

def shaMaj (x y z : Nat) : Nat := (x &&& y) ^^^ (x &&& z) ^^^ (y &&& z)

def bigSigma0 (x : Nat) : Nat := rotr32 2 x ^^^ rotr32 13 x ^^^ rotr32 22 x

def bigSigma1 (x : Nat) : Nat := rotr32 6 x ^^^ rotr32 11 x ^^^ rotr32 25 x

def smallSigma0 (x : Nat) : Nat := rotr32 7 x ^^^ rotr32 18 x ^^^ (x >>> 3)

def smallSigma1 (x : Nat) : Nat := rotr32 17 x ^^^ rotr32 19 x ^^^ (x >>> 10)

def shaK : List Nat :=
  [1116352408, 1899447441, 3049323471, 3921009573, 961987163,
   1508970993, 2453635748, 2870763221, 3624381080, 310598401,
   607225278, 1426881987, 1925078388, 2162078206, 2614888103,
   3248222580, 3835390401, 4022224774, 264347078, 604807628,
   770255983, 1249150122, 1555081692, 1996064986, 2554220882,
   2821834349, 2952996808, 3210313671, 3336571891, 3584528711,
   113926993, 338241895, 666307205, 773529912, 1294757372,
   1396182291, 1695183700, 1986661051, 2177026350, 2456956037,
   2730485921, 2820302411, 3259730800, 3345764771, 3516065817,
   3600352804, 4094571909, 275423344, 430227734, 506948616,
   659060556, 883997877, 958139571, 1322822218, 1537002063,
   1747873779, 1955562222, 2024104815, 2227730452, 2361852424,
   2428436474, 2756734187, 3204031479, 3329325298]

def shaH0 : List Nat :=
  [1779033703, 3144134277, 1013904242, 2773480762,
   1359893119, 2600822924, 528734635, 1541459225]

def bytesToWords : List Nat → List Nat
  | b0 :: b1 :: b2 :: b3 :: rest =>
    (b0 * 16777216 + b1 * 65536 + b2 * 256 + b3) :: bytesToWords rest
  | _ => []

def stepW (ws : List Nat) : List Nat :=
  let n := ws.length
  ws ++ [add32 (add32 (smallSigma1 (ws.getD (n - 2) 0)) (ws.getD (n - 7) 0))
              (add32 (smallSigma0 (ws.getD (n - 15) 0)) (ws.getD (n - 16) 0))]

def extendW : Nat → List Nat → List Nat
  | 0, ws => ws
  | k + 1, ws => extendW k (stepW ws)

def shaRound (k w : Nat) : List Nat → List Nat
  | [a, b, c, d, e, f, g, hh] =>
    let t1 := add32 hh (add32 (bigSigma1 e) (add32 (shaCh e f g) (add32 k w)))
    let t2 := add32 (bigSigma0 a) (shaMaj a b c)
    [add32 t1 t2, a, b, c, add32 d t1, e, f, g]
  | st => st

def shaCompress (h : List Nat) (block : List Nat) : List Nat :=
  let ws := extendW 48 (bytesToWords block)
  let fin := (shaK.zip ws).foldl (fun st kw => shaRound kw.1 kw.2 st) h
  List.zipWith add32 h fin

def foldBlocks : Nat → List Nat → List Nat → List Nat
  | _, h, [] => h
  | 0, h, _ => h
  | fuel + 1, h, bytes => foldBlocks fuel (shaCompress h (bytes.take 64)) (bytes.drop 64)

def lenBytes64 (n : Nat) : List Nat :=
  [(n >>> 56) &&& 255, (n >>> 48) &&& 255, (n >>> 40) &&& 255, (n >>> 32) &&& 255,
   (n >>> 24) &&& 255, (n >>> 16) &&& 255, (n >>> 8) &&& 255, n &&& 255]

def padMessage (msg : List Nat) : List Nat :=
  let ml := msg.length
  let padZeros := (55 + 64 - ml % 64) % 64
  msg ++ [128] ++ List.replicate padZeros 0 ++ lenBytes64 (8 * ml)

def wordBytes (w : Nat) : List Nat :=
  [(w >>> 24) &&& 255, (w >>> 16) &&& 255, (w >>> 8) &&& 255, w &&& 255]

def sha256 (msg : List Nat) : List Nat :=
  let padded := padMessage msg
  (foldBlocks padded.length shaH0 padded).foldr (fun w acc => wordBytes w ++ acc) []

def hmacSha256 (key msg : List Nat) : List Nat :=
  let k0 :=
    if 64 < key.length then sha256 key ++ List.replicate 32 0
    else key ++ List.replicate (64 - key.length) 0
  let ipadded := k0.map (fun b => b ^^^ 54)
  let opadded := k0.map (fun b => b ^^^ 92)
  sha256 (opadded ++ sha256 (ipadded ++ msg))

def utf8Encode (c : Nat) : List Nat :=
  if c < 128 then [c]
  else if c < 2048 then [192 ||| (c >>> 6), 128 ||| (c &&& 63)]
  else if c < 65536 then
    [224 ||| (c >>> 12), 128 ||| ((c >>> 6) &&& 63), 128 ||| (c &&& 63)]
  else
    [240 ||| (c >>> 18), 128 ||| ((c >>> 12) &&& 63), 128 ||| ((c >>> 6) &&& 63),
     128 ||| (c &&& 63)]

def strUtf8 (s : String) : List Nat := s.data.foldr (fun c acc => utf8Encode c.toNat ++ acc) []

def b64Table : List Char :=
  "ABCDEFGHIJKLMNOPQRSTUVWXYZabcdefghijklmnopqrstuvwxyz0123456789+/".data

def b64Char (n : Nat) : Char := b64Table.getD n 'A'

def base64Encode : List Nat → List Char
  | [] => []
  | [b0] =>
    [b64Char (b0 >>> 2), b64Char ((b0 &&& 3) <<< 4), '=', '=']
  | [b0, b1] =>
    [b64Char (b0 >>> 2), b64Char (((b0 &&& 3) <<< 4) ||| (b1 >>> 4)),
     b64Char ((b1 &&& 15) <<< 2), '=']
  | b0 :: b1 :: b2 :: rest =>
    [b64Char (b0 >>> 2), b64Char (((b0 &&& 3) <<< 4) ||| (b1 >>> 4)),
     b64Char (((b1 &&& 15) <<< 2) ||| (b2 >>> 6)), b64Char (b2 &&& 63)]
    ++ base64Encode rest

def get_sign (data key : String) : String :=
  String.mk (base64Encode (hmacSha256 (strUtf8 key) (strUtf8 data)))

/- ===================================================================
   Token attachment (claim C7).

   Every authenticated DingRequest operation attaches the access token
   either inside the URL query string (legacy base, join_url with
   url_prefix) or in the x-acs-dingtalk-access-token header (current base,
   join_url with new_api_url_prefix).  Each definition below records the
   request one source method issues: the base, the path-with-query string
   as constructed in the source f-string, and the headers.  Request bodies
   and data query params carry no token and are omitted.  get_token and
   get_user_access_token are the unauthenticated exchanges themselves and
   attach no token.
   =================================================================== -/

/-- Which API base a request is joined with: url_prefix
https://oapi.dingtalk.com (legacy) or new_api_url_prefix
https://api.dingtalk.com (current). -/
inductive ApiBase where
  | legacy
  | current
  deriving DecidableEq

/-- One HTTP request of DingRequest as far as token placement is
concerned. -/
structure Request where
  base : ApiBase
  path : String
  headers : List (String × String)

/-- DingRequest.get_user_info_by_userid (src/common/ding_request.py line 184). -/
def get_user_info_by_userid_req (tok : String) : Request :=
  ⟨.legacy, "topapi/v2/user/get?access_token=" ++ tok, []⟩

/-- DingRequest.get_auth_scopes (src/common/ding_request.py line 199). -/
def get_auth_scopes_req (tok : String) : Request :=
  ⟨.legacy, "auth/scopes?access_token=" ++ tok, []⟩

/-- DingRequest.department_listsubid (src/common/ding_request.py line 213). -/
def department_listsubid_req (tok : String) : Request :=
  ⟨.legacy, "topapi/v2/department/listsubid?access_token=" ++ tok, []⟩

/-- DingRequest.department_detail (src/common/ding_request.py line 228). -/
def department_detail_req (tok : String) : Request :=
  ⟨.legacy, "topapi/v2/department/get?access_token=" ++ tok, []⟩

/-- DingRequest.department_users (src/common/ding_request.py line 247). -/
def department_users_req (tok : String) : Request :=
  ⟨.legacy, "topapi/v2/user/list?access_token=" ++ tok, []⟩

/-- DingRequest.upload_media (src/common/ding_request.py line 269); the media type follows the token in the
query string. -/
def upload_media_req (tok media_type : String) : Request :=
  ⟨.legacy, "media/upload?access_token=" ++ tok ++ ("&type=" ++ media_type), []⟩

/-- DingRequest.send_message (src/common/ding_request.py line 282). -/
def send_message_req (tok : String) : Request :=
  ⟨.legacy, "topapi/message/corpconversation/asyncsend_v2?access_token=" ++ tok, []⟩

/-- DingRequest.get_user_info_by_access_token (src/common/ding_request.py
lines 167-172): a full current-base URL with the union id interpolated,
the user access token in the header. -/
def get_user_info_by_access_token_req (tok union_id : String) : Request :=
  ⟨.current, "https://api.dingtalk.com/v1.0/contact/users/" ++ union_id,
    [("x-acs-dingtalk-access-token", tok)]⟩

/-- DingRequest.create_or_update_custom_oa_template (src/common/ding_request.py lines 302-313). -/
def create_or_update_custom_oa_template_req (tok : String) : Request :=
  ⟨.current, "v1.0/workflow/processCentres/schemas", [("x-acs-dingtalk-access-token", tok)]⟩

/-- DingRequest.get_custom_oa_process_code (line 324). -/
def get_custom_oa_process_code_req (tok : String) : Request :=
  ⟨.current, "/v1.0/workflow/processCentres/schemaNames/processCodes", [("x-acs-dingtalk-access-token", tok)]⟩

/-- DingRequest.delete_custom_oa_template (line 341). -/
def delete_custom_oa_template_req (tok : String) : Request :=
  ⟨.current, "/v1.0/workflow/processCentres/schemas", [("x-acs-dingtalk-access-token", tok)]⟩

/-- DingRequest.create_custom_oa_instance (line 366). -/
def create_custom_oa_instance_req (tok : String) : Request :=
  ⟨.current, "/v1.0/workflow/processCentres/instances", [("x-acs-dingtalk-access-token", tok)]⟩

/-- DingRequest.update_custom_oa_instance_state (line 393). -/
def update_custom_oa_instance_state_req (tok : String) : Request :=
  ⟨.current, "/v1.0/workflow/processCentres/instances", [("x-acs-dingtalk-access-token", tok)]⟩

/-- DingRequest.update_custom_oa_instance_state_batch (line 415). -/
def update_custom_oa_instance_state_batch_req (tok : String) : Request :=
  ⟨.current, "/v1.0/workflow/processCentres/instances/batch", [("x-acs-dingtalk-access-token", tok)]⟩

/-- DingRequest.create_custom_oa_task (line 435). -/
def create_custom_oa_task_req (tok : String) : Request :=
  ⟨.current, "/v1.0/workflow/processCentres/tasks", [("x-acs-dingtalk-access-token", tok)]⟩

/-- DingRequest.get_custom_oa_tasks (line 461). -/
def get_custom_oa_tasks_req (tok : String) : Request :=
  ⟨.current, "/v1.0/workflow/processCentres/todoTasks", [("x-acs-dingtalk-access-token", tok)]⟩

/-- DingRequest.update_custom_oa_task_state (line 486). -/
def update_custom_oa_task_state_req (tok : String) : Request :=
  ⟨.current, "/v1.0/workflow/processCentres/tasks", [("x-acs-dingtalk-access-token", tok)]⟩

/-- DingRequest.cancel_custom_oa_tasks_batch (line 508). -/
def cancel_custom_oa_tasks_batch_req (tok : String) : Request :=
  ⟨.current, "/v1.0/workflow/processCentres/tasks/cancel", [("x-acs-dingtalk-access-token", tok)]⟩

/-- DingRequest.create_or_update_official_oa_template (line 536). -/
def create_or_update_official_oa_template_req (tok : String) : Request :=
  ⟨.current, "/v1.0/workflow/forms", [("x-acs-dingtalk-access-token", tok)]⟩

/-- DingRequest.get_official_oa_form_schemas (line 559). -/
def get_official_oa_form_schemas_req (tok : String) : Request :=
  ⟨.current, "/v1.0/workflow/forms/schemas/processCodes", [("x-acs-dingtalk-access-token", tok)]⟩

/-- DingRequest.get_official_oa_processes_nodes (line 583). -/
def get_official_oa_processes_nodes_req (tok : String) : Request :=
  ⟨.current, "/v1.0/workflow/processes/forecast", [("x-acs-dingtalk-access-token", tok)]⟩

/-- DingRequest.create_official_oa_instance (line 616). -/
def create_official_oa_instance_req (tok : String) : Request :=
  ⟨.current, "/v1.0/workflow/processInstances", [("x-acs-dingtalk-access-token", tok)]⟩

/-- DingRequest.get_official_oa_instance_id_list (line 650). -/
def get_official_oa_instance_id_list_req (tok : String) : Request :=
  ⟨.current, "/v1.0/workflow/processes/instanceIds/query", [("x-acs-dingtalk-access-token", tok)]⟩

/-- DingRequest.get_official_oa_instance_detail (line 674). -/
def get_official_oa_instance_detail_req (tok : String) : Request :=
  ⟨.current, "/v1.0/workflow/processInstances", [("x-acs-dingtalk-access-token", tok)]⟩

/-- DingRequest.redirect_official_oa_task (line 698). -/
def redirect_official_oa_task_req (tok : String) : Request :=
  ⟨.current, "/v1.0/workflow/tasks/redirect", [("x-acs-dingtalk-access-token", tok)]⟩

/-- DingRequest.get_official_oa_spaces_infos (line 721). -/
def get_official_oa_spaces_infos_req (tok : String) : Request :=
  ⟨.current, "/v1.0/workflow/processInstances/spaces/infos/query", [("x-acs-dingtalk-access-token", tok)]⟩

/-- DingRequest.create_official_oa_approve_comment (line 745). -/
def create_official_oa_approve_comment_req (tok : String) : Request :=
  ⟨.current, "/v1.0/workflow/processInstances/comments", [("x-acs-dingtalk-access-token", tok)]⟩

/-- DingRequest.execute_official_oa_task (line 775). -/
def execute_official_oa_task_req (tok : String) : Request :=
  ⟨.current, "/v1.0/workflow/processInstances/execute", [("x-acs-dingtalk-access-token", tok)]⟩

/-- DingRequest.terminate_official_oa_instance (line 802). -/
def terminate_official_oa_instance_req (tok : String) : Request :=
  ⟨.current, "/v1.0/workflow/processInstances/terminate", [("x-acs-dingtalk-access-token", tok)]⟩

/-- DingRequest.get_official_oa_todo_tasks_number (line 823). -/
def get_official_oa_todo_tasks_number_req (tok : String) : Request :=
  ⟨.current, "/v1.0/workflow/processes/todoTasks/numbers", [("x-acs-dingtalk-access-token", tok)]⟩

/-- DingRequest.get_user_official_oa_tasks (line 843). -/
def get_user_official_oa_tasks_req (tok : String) : Request :=
  ⟨.current, "/v1.0/workflow/processes/userVisibilities/templates", [("x-acs-dingtalk-access-token", tok)]⟩

/-- DingRequest.get_user_official_oa_templates (line 862). -/
def get_user_official_oa_templates_req (tok : String) : Request :=
  ⟨.current, "/v1.0/workflow/processes/managements/templates", [("x-acs-dingtalk-access-token", tok)]⟩

/-- pat is an initial run of the second list. -/
def leadsWith : List Char → List Char → Bool
  | [], _ => true
  | _ :: _, [] => false
  | p :: ps, c :: cs => p == c && leadsWith ps cs

/-- pat occurs contiguously somewhere in the second list. -/
def containsSeg (pat : List Char) : List Char → Bool
  | [] => leadsWith pat []
  | c :: cs => leadsWith pat (c :: cs) || containsSeg pat cs

/-- The legacy convention: the request goes to the legacy base, carries no
headers, and its URL contains access_token= immediately followed by the
token. -/
def usesQueryToken (r : Request) (tok : String) : Prop :=
  r.base = .legacy ∧ r.headers = []
  ∧ containsSeg (("access_token=" ++ tok).data) r.path.data = true

/-- The current convention: the request goes to the current base, its only
header is x-acs-dingtalk-access-token carrying the token, and its URL does
not mention access_token at all. -/
def usesHeaderToken (r : Request) (tok : String) : Prop :=
  r.base = .current
  ∧ r.headers = [("x-acs-dingtalk-access-token", tok)]
  ∧ containsSeg ("access_token=" : String).data r.path.data = false

/- ===================================================================
   Theorems.
   =================================================================== -/

theorem fetch_loop_serves {α : Type} {fetch : Nat → MemberPage α} :
    ∀ {c : Nat} {ps : List (MemberPage α)}, ServesFrom fetch c ps →
      ∀ (acc : List α) (fuel : Nat), ps.length ≤ fuel →
        fetch_loop fetch fuel (some c) acc
          = some (acc ++ (ps.map MemberPage.items).flatten) := by
  intro c ps h
  induction h with
  | last c p hf hn =>
    intro acc fuel hfuel
    match fuel, hfuel with
    | fuel + 1, _ =>
      simp [fetch_loop, hf, hn]
  | step c p c' ps hf hn _hs ih =>
    intro acc fuel hfuel
    match fuel, hfuel with
    | fuel + 1, hfuel =>
      have : ps.length ≤ fuel := by
        simpa [Nat.succ_le_succ_iff] using hfuel
      simp [fetch_loop, hf, hn, ih _ fuel this]

/-- Claim C2: whenever the server serves the finite page sequence pages
starting from cursor 0, the member-listing loop of Employee.sync_ding_user
concatenates the pages item lists in page order, follows each next_cursor,
and terminates exactly when a page has no next_cursor; with fuel covering
the pages after the first the loop returns exactly the in-order
concatenation. -/
theorem sync_ding_user_members_concats_pages
    {α : Type} (fetch : Nat → MemberPage α) (p0 : MemberPage α)
    (rest : List (MemberPage α)) (fuel : Nat)
    (h : ServesFrom fetch 0 (p0 :: rest)) (hfuel : rest.length ≤ fuel) :
    sync_ding_user_members fetch fuel
      = some (((p0 :: rest).map MemberPage.items).flatten) := by
  cases h with
  | last _ p hf hn =>
    simp [sync_ding_user_members, hf, hn, fetch_loop]
  | step _ p c' ps hf hn hs =>
    simp only [sync_ding_user_members, hf, hn, List.map_cons, List.flatten_cons]
    exact fetch_loop_serves hs p0.items fuel hfuel

set_option maxRecDepth 8000 in
/-- Witness for claim C2: the concrete three-page server with pages of
sizes 100, 100 and 37 yields exactly the 237 members 0..236 in page
order. -/
theorem sync_ding_user_members_concats_pages_witness :
    sync_ding_user_members threePageFetch 2 = some (List.range 237)
    ∧ (List.range 237).length = 237 := by
  have h : ServesFrom threePageFetch 0
      (⟨List.range 100, some 100⟩
        :: [⟨(List.range 100).map (100 + ·), some 200⟩,
            ⟨(List.range 37).map (200 + ·), none⟩]) :=
    .step 0 _ 100 _ rfl rfl (.step 100 _ 200 _ rfl rfl (.last 200 _ rfl rfl))
  have hmain := sync_ding_user_members_concats_pages threePageFetch _ _ 2 h (by decide)
  refine ⟨?_, by decide⟩
  rw [hmain]
  congr 1


/-- Claim C1: the token accessor performs an authentication exchange if and
only if the cached credential is absent or expired; starting from an empty
cache, two calls in immediate succession while the first token is unexpired
perform exactly one exchange in total (the second call is a cache hit); and
a call at or after the cached expiry timestamp performs a new exchange even
though a token string is still cached. -/
theorem refresh_token_exchanges_iff_stale :
    ∀ (s : TokenStore) (now : Nat) (ex : String × Nat),
      ((refresh_token s now ex).2 = 1 ↔ s.get now = none)
    ∧ (∀ (t0 t1 : Nat) (tok : String) (e : Nat), t1 < t0 + e →
        (refresh_token ⟨none⟩ t0 (tok, e)).2 = 1
        ∧ (refresh_token (refresh_token ⟨none⟩ t0 (tok, e)).1 t1 ex).2 = 0)
    ∧ (∀ (tok : String) (expiresAt now2 : Nat), expiresAt ≤ now2 →
        (refresh_token ⟨some (tok, expiresAt)⟩ now2 ex).2 = 1) := by
  intro s now ex
  refine ⟨?_, ?_, ?_⟩
  · constructor
    · intro h
      cases hg : s.get now with
      | none => rfl
      | some tok => simp [refresh_token, hg] at h
    · intro h
      simp [refresh_token, h]
  · intro t0 t1 tok e h1
    constructor
    · simp [refresh_token, TokenStore.get]
    · simp [refresh_token, TokenStore.save, TokenStore.get, h1]
  · intro tok expiresAt now2 h
    simp [refresh_token, TokenStore.get, Nat.not_lt.mpr h]

/-- Witness for claim C1 at concrete inputs: an empty store at time 0 with
a token that lives 7200 seconds is refreshed exactly once over two calls,
and a store whose credential expired at time 10 is refreshed at time 10. -/
theorem refresh_token_exchanges_iff_stale_witness :
    (refresh_token ⟨none⟩ 0 ("tok", 7200)).2 = 1
    ∧ (refresh_token (refresh_token ⟨none⟩ 0 ("tok", 7200)).1 1 ("tok2", 7200)).2 = 0
    ∧ (refresh_token ⟨some ("old", 10)⟩ 10 ("tok2", 7200)).2 = 1 := by
  have h := refresh_token_exchanges_iff_stale ⟨none⟩ 0 ("tok2", 7200)
  have h2 := h.2.1 0 1 "tok" 7200 (by decide)
  have h3 := h.2.2 "old" 10 10 (by decide)
  exact ⟨h2.1, h2.2, h3⟩

/-- Claim C9: the cleanRunningTask field sent by delete_custom_oa_template
is False exactly when the clean_running_task argument is the string
'false'; every other value, including the boolean False that is the
declared default, is sent as True. -/
theorem cleanRunningTask_false_iff_string_false :
    ∀ v : PyVal, (cleanRunningTaskField v = false ↔ v = .pystr "false")
    ∧ cleanRunningTaskField (.pybool false) = true := by
  intro v
  constructor
  · cases v with
    | pystr s =>
      constructor
      · intro h
        by_cases hs : s = "false"
        · simp [hs]
        · simp [cleanRunningTaskField, pyEq, hs] at h
      · intro h
        cases h
        simp [cleanRunningTaskField, pyEq]
    | pybool b => simp [cleanRunningTaskField, pyEq]
    | pyint n => simp [cleanRunningTaskField, pyEq]
    | pynone => simp [cleanRunningTaskField, pyEq]
  · rfl

/-- Claim C10: send_list_to_str from the employee model and list_to_str
from utils with the default separator are the same function: both send
None to None and a list to its elements joined with a comma. -/
theorem send_list_to_str_eq_list_to_str :
    ∀ l : Option (List String),
      send_list_to_str l = list_to_str l ","
    ∧ send_list_to_str none = none
    ∧ (∀ xs : List String, send_list_to_str (some xs) = some (String.intercalate "," xs)) := by
  intro l
  refine ⟨?_, rfl, fun xs => rfl⟩
  cases l with
  | none => rfl
  | some xs => rfl

theorem filterMap_get_range (l : List α) :
    (List.range l.length).filterMap l.get? = l := by
  induction l with
  | nil => rfl
  | cons a t ih =>
    rw [List.length_cons, List.range_succ_eq_map]
    simp only [List.filterMap_cons, List.get?_cons_zero, List.filterMap_map]
    have hcomp : (a :: t).get? ∘ Nat.succ = t.get? := by
      funext i
      simp
    rw [hcomp, ih]

theorem permuteBy_creation (l : List α) : permuteBy [] l = l := by
  have h1 : normPerm [] l.length = List.range l.length := by
    unfold normPerm
    simp [List.filter_eq_self]
  unfold permuteBy
  rw [h1]
  exact filterMap_get_range l

theorem mem_normPerm {σ : List Nat} {n i : Nat} : i ∈ normPerm σ n ↔ i < n := by
  unfold normPerm
  constructor
  · intro h
    rcases List.mem_append.mp h with h1 | h2
    · have h3 := List.mem_dedup.mp h1
      have h4 := List.mem_filter.mp h3
      exact of_decide_eq_true h4.2
    · exact List.mem_range.mp (List.mem_filter.mp h2).1
  · intro h
    by_cases hp : i ∈ (σ.filter (· < n)).dedup
    · exact List.mem_append.mpr (Or.inl hp)
    · refine List.mem_append.mpr (Or.inr (List.mem_filter.mpr ⟨List.mem_range.mpr h, ?_⟩))
      simp only [decide_eq_true_eq]
      exact hp

theorem mem_permuteBy {σ : List Nat} {l : List α} {x : α} :
    x ∈ permuteBy σ l ↔ x ∈ l := by
  unfold permuteBy
  constructor
  · intro h
    rcases List.mem_filterMap.mp h with ⟨i, _, hget⟩
    exact List.get?_mem hget
  · intro h
    rcases List.mem_iff_get?.mp h with ⟨i, hget⟩
    have hilt : i < l.length := by
      by_contra hge
      rw [List.get?_eq_none.mpr (Nat.le_of_not_lt hge)] at hget
      cases hget
    exact List.mem_filterMap.mpr ⟨i, mem_normPerm.mpr hilt, hget⟩

theorem gatherE_error_of_mem {e : String} {rs : List (Except String α)}
    (h : Except.error e ∈ rs) : ∃ e2, gatherE rs = Except.error e2 := by
  induction rs with
  | nil => cases h
  | cons r t ih =>
    cases r with
    | error e1 => exact ⟨e1, rfl⟩
    | ok a =>
      rcases List.mem_cons.mp h with h1 | h2
      · simp at h1
      · rcases ih h2 with ⟨e2, he2⟩
        exact ⟨e2, by simp [gatherE, he2, Except.map]⟩

theorem gatherE_eq_error {e : String} {rs : List (Except String α)}
    (hall : ∀ x ∈ rs, okOrE e x) (hmem : Except.error e ∈ rs) :
    gatherE rs = Except.error e := by
  induction rs with
  | nil => cases hmem
  | cons r t ih =>
    cases r with
    | error e1 =>
      rcases hall _ (List.mem_cons_self _ _) with ⟨a, ha⟩ | hb
      · simp at ha
      · cases hb
        rfl
    | ok a =>
      have hmem2 : Except.error e ∈ t := by
        rcases List.mem_cons.mp hmem with h1 | h2
        · simp at h1
        · exact h2
      have := ih (fun x hx => hall x (List.mem_cons_of_mem _ hx)) hmem2
      simp [gatherE, this, Except.map]

theorem gatherE_okOrE {e : String} {rs : List (Except String α)}
    (hall : ∀ x ∈ rs, okOrE e x) : okOrE e (gatherE rs) := by
  induction rs with
  | nil => exact Or.inl ⟨[], rfl⟩
  | cons r t ih =>
    rcases hall _ (List.mem_cons_self _ _) with ⟨a, ha⟩ | hb
    · rcases ih (fun x hx => hall x (List.mem_cons_of_mem _ hx)) with ⟨l, hl⟩ | he
      · exact Or.inl ⟨a :: l, by simp [ha, gatherE, hl, Except.map]⟩
      · exact Or.inr (by simp [ha, gatherE, he, Except.map])
    · exact Or.inr (by simp [hb, gatherE])

theorem treeE_okOrE {e : String} {listsub : Nat → Except String (List Nat)}
    (hls : ∀ x, okOrE e (listsub x)) (sched : List Nat → List Nat) :
    ∀ (fuel : Nat) (deps : List Nat),
      okOrE e (get_ding_server_depart_treeE listsub sched fuel deps) := by
  intro fuel
  induction fuel with
  | zero => exact fun deps => Or.inl ⟨[], rfl⟩
  | succ n ih =>
    intro deps
    show okOrE e (gatherE _)
    apply gatherE_okOrE
    intro x hx
    rcases List.mem_map.mp (mem_permuteBy.mp hx) with ⟨d, _, hfd⟩
    subst hfd
    rcases hls d with ⟨sub, hsub⟩ | herr
    · rcases ih sub with ⟨l, hl⟩ | he
      · exact Or.inl ⟨⟨d, l⟩, by simp [hsub, hl]⟩
      · exact Or.inr (by simp [hsub, he])
    · exact Or.inr (by simp [herr])

theorem detailFails_pos {detail : Nat → Except String Unit} {e : String}
    {fuel : Nat} {leaves : List DNode} (h : DetailFails detail e fuel leaves) :
    0 < leaves.length := by
  cases h with
  | here fuel leaves leaf hmem _ =>
    exact List.length_pos.mpr (List.ne_nil_of_mem hmem)
  | deeper fuel leaves leaf hmem _ _ =>
    exact List.length_pos.mpr (List.ne_nil_of_mem hmem)

theorem treeE_elems_okOrE {e : String} {listsub : Nat → Except String (List Nat)}
    (hls : ∀ x, okOrE e (listsub x)) (sched : List Nat → List Nat) (fuel : Nat)
    (deps : List Nat) :
    ∀ x ∈ permuteBy (sched deps) (deps.map (fun d =>
      match listsub d with
      | .error e2 => .error e2
      | .ok sub =>
        match get_ding_server_depart_treeE listsub sched fuel sub with
        | .error e2 => .error e2
        | .ok children => .ok (⟨d, children⟩ : DNode))), okOrE e x := by
  intro x hx
  rcases List.mem_map.mp (mem_permuteBy.mp hx) with ⟨d2, _, hfd⟩
  subst hfd
  rcases hls d2 with ⟨sub, hsub⟩ | herr
  · rcases treeE_okOrE hls sched fuel sub with ⟨l, hl⟩ | he3
    · exact Or.inl ⟨⟨d2, l⟩, by simp [hsub, hl]⟩
    · exact Or.inr (by simp [hsub, he3])
  · exact Or.inr (by simp [herr])

theorem treeE_error_of_fetchFails {e : String}
    {listsub : Nat → Except String (List Nat)} (sched : List Nat → List Nat) :
    ∀ {fuel : Nat} {deps : List Nat}, FetchFails listsub e fuel deps →
      ∃ e2, get_ding_server_depart_treeE listsub sched fuel deps
        = Except.error e2 := by
  intro fuel deps h
  induction h with
  | here fuel deps d hd he =>
    have hmem : Except.error e ∈ deps.map (fun d2 =>
        match listsub d2 with
        | .error e2 => .error e2
        | .ok sub =>
          match get_ding_server_depart_treeE listsub sched fuel sub with
          | .error e2 => .error e2
          | .ok children => .ok (⟨d2, children⟩ : DNode)) :=
      List.mem_map.mpr ⟨d, hd, by simp [he]⟩
    exact gatherE_error_of_mem ((mem_permuteBy (σ := sched deps)).mpr hmem)
  | deeper fuel deps d sub hd hsub _hff ih =>
    obtain ⟨e2, he2⟩ := ih
    have hmem : Except.error e2 ∈ deps.map (fun d2 =>
        match listsub d2 with
        | .error e3 => .error e3
        | .ok sub2 =>
          match get_ding_server_depart_treeE listsub sched fuel sub2 with
          | .error e3 => .error e3
          | .ok children => .ok (⟨d2, children⟩ : DNode)) :=
      List.mem_map.mpr ⟨d, hd, by simp [hsub, he2]⟩
    exact gatherE_error_of_mem ((mem_permuteBy (σ := sched deps)).mpr hmem)

theorem treeE_eq_error_of_fetchFails {e : String}
    {listsub : Nat → Except String (List Nat)}
    (hls : ∀ x, okOrE e (listsub x)) (sched : List Nat → List Nat) :
    ∀ {fuel : Nat} {deps : List Nat}, FetchFails listsub e fuel deps →
      get_ding_server_depart_treeE listsub sched fuel deps
        = Except.error e := by
  intro fuel deps h
  induction h with
  | here fuel deps d hd he =>
    show gatherE _ = Except.error e
    exact gatherE_eq_error (treeE_elems_okOrE hls sched fuel deps)
      ((mem_permuteBy (σ := sched deps)).mpr (List.mem_map.mpr ⟨d, hd, by simp [he]⟩))
  | deeper fuel deps d sub hd hsub _hff ih =>
    show gatherE _ = Except.error e
    exact gatherE_eq_error (treeE_elems_okOrE hls sched fuel deps)
      ((mem_permuteBy (σ := sched deps)).mpr (List.mem_map.mpr ⟨d, hd, by simp [hsub, ih]⟩))

theorem syncdep_okOrE {e : String} {detail : Nat → Except String Unit}
    (hdet : ∀ x, okOrE e (detail x)) (sched : List Nat → List Nat) :
    ∀ (fuel : Nat) (leaves : List DNode),
      okOrE e (sync_dep_list detail sched fuel leaves) := by
  intro fuel
  induction fuel with
  | zero => exact fun leaves => Or.inl ⟨(), rfl⟩
  | succ n ih =>
    intro leaves
    have hall : ∀ x ∈ permuteBy (sched (leaves.map DNode.id))
        (leaves.map (fun leaf =>
          match detail leaf.id with
          | .error e2 => .error e2
          | .ok _ =>
            if 0 < leaf.children.length then
              sync_dep_list detail sched n leaf.children
            else .ok ())), okOrE e x := by
      intro x hx
      rcases List.mem_map.mp (mem_permuteBy.mp hx) with ⟨leaf, _, hfd⟩
      subst hfd
      rcases hdet leaf.id with ⟨u, hu⟩ | herr
      · by_cases hc : 0 < leaf.children.length
        · rcases ih leaf.children with ⟨v, hv⟩ | hev
          · exact Or.inl ⟨v, by simp [hu, hc, hv]⟩
          · exact Or.inr (by simp [hu, hc, hev])
        · exact Or.inl ⟨(), by simp [hu, hc]⟩
      · exact Or.inr (by simp [herr])
    rcases gatherE_okOrE hall with ⟨l, hl⟩ | he2
    · exact Or.inl ⟨(), by simp [sync_dep_list, hl]⟩
    · exact Or.inr (by simp [sync_dep_list, he2])

theorem syncdep_error_of_detailFails {e : String}
    {detail : Nat → Except String Unit} (sched : List Nat → List Nat) :
    ∀ {fuel : Nat} {leaves : List DNode}, DetailFails detail e fuel leaves →
      ∃ e2, sync_dep_list detail sched fuel leaves = Except.error e2 := by
  intro fuel leaves h
  induction h with
  | here fuel leaves leaf hmem he =>
    have hin : Except.error e ∈ leaves.map (fun leaf2 =>
        match detail leaf2.id with
        | .error e2 => .error e2
        | .ok _ =>
          if 0 < leaf2.children.length then
            sync_dep_list detail sched fuel leaf2.children
          else Except.ok ()) :=
      List.mem_map.mpr ⟨leaf, hmem, by simp [he]⟩
    obtain ⟨e2, hg⟩ := gatherE_error_of_mem
      ((mem_permuteBy (σ := sched (leaves.map DNode.id))).mpr hin)
    exact ⟨e2, by simp [sync_dep_list, hg]⟩
  | deeper fuel leaves leaf hmem hok hff ih =>
    obtain ⟨e2, he2⟩ := ih
    have hpos := detailFails_pos hff
    have hin : Except.error e2 ∈ leaves.map (fun leaf2 =>
        match detail leaf2.id with
        | .error e3 => .error e3
        | .ok _ =>
          if 0 < leaf2.children.length then
            sync_dep_list detail sched fuel leaf2.children
          else Except.ok ()) :=
      List.mem_map.mpr ⟨leaf, hmem, by simp [hok, hpos, he2]⟩
    obtain ⟨e3, hg⟩ := gatherE_error_of_mem
      ((mem_permuteBy (σ := sched (leaves.map DNode.id))).mpr hin)
    exact ⟨e3, by simp [sync_dep_list, hg]⟩

theorem syncdep_eq_error_of_detailFails {e : String}
    {detail : Nat → Except String Unit}
    (hdet : ∀ x, okOrE e (detail x)) (sched : List Nat → List Nat) :
    ∀ {fuel : Nat} {leaves : List DNode}, DetailFails detail e fuel leaves →
      sync_dep_list detail sched fuel leaves = Except.error e := by
  intro fuel leaves h
  induction h with
  | here fuel leaves leaf hmem he =>
    have hall : ∀ x ∈ permuteBy (sched (leaves.map DNode.id))
        (leaves.map (fun leaf2 =>
          match detail leaf2.id with
          | .error e2 => .error e2
          | .ok _ =>
            if 0 < leaf2.children.length then
              sync_dep_list detail sched fuel leaf2.children
            else .ok ())), okOrE e x := by
      intro x hx
      rcases List.mem_map.mp (mem_permuteBy.mp hx) with ⟨leaf2, _, hfd⟩
      subst hfd
      rcases hdet leaf2.id with ⟨u, hu⟩ | herr
      · by_cases hc : 0 < leaf2.children.length
        · rcases syncdep_okOrE hdet sched fuel leaf2.children with ⟨v, hv⟩ | hev
          · exact Or.inl ⟨v, by simp [hu, hc, hv]⟩
          · exact Or.inr (by simp [hu, hc, hev])
        · exact Or.inl ⟨(), by simp [hu, hc]⟩
      · exact Or.inr (by simp [herr])
    have hg := gatherE_eq_error hall
      ((mem_permuteBy (σ := sched (leaves.map DNode.id))).mpr
        (List.mem_map.mpr ⟨leaf, hmem, by simp [he]⟩))
    simp [sync_dep_list, hg]
  | deeper fuel leaves leaf hmem hok hff ih =>
    have hpos := detailFails_pos hff
    have hall : ∀ x ∈ permuteBy (sched (leaves.map DNode.id))
        (leaves.map (fun leaf2 =>
          match detail leaf2.id with
          | .error e2 => .error e2
          | .ok _ =>
            if 0 < leaf2.children.length then
              sync_dep_list detail sched fuel leaf2.children
            else .ok ())), okOrE e x := by
      intro x hx
      rcases List.mem_map.mp (mem_permuteBy.mp hx) with ⟨leaf2, _, hfd⟩
      subst hfd
      rcases hdet leaf2.id with ⟨u, hu⟩ | herr
      · by_cases hc : 0 < leaf2.children.length
        · rcases syncdep_okOrE hdet sched fuel leaf2.children with ⟨v, hv⟩ | hev
          · exact Or.inl ⟨v, by simp [hu, hc, hv]⟩
          · exact Or.inr (by simp [hu, hc, hev])
        · exact Or.inl ⟨(), by simp [hu, hc]⟩
      · exact Or.inr (by simp [herr])
    have hg := gatherE_eq_error hall
      ((mem_permuteBy (σ := sched (leaves.map DNode.id))).mpr
        (List.mem_map.mpr ⟨leaf, hmem, by simp [hok, hpos, ih]⟩))
    simp [sync_dep_list, hg]

/-- Claim C4: if any single fetch of the tree synchronisation raises —
the child listing of any node the build_tree traversal reaches, at any
depth, or the node detail of any node the sync walk reaches — then the
whole call (get_ding_server_depart_tree, and sync_ding_department built
on it) fails: it returns an error and never a partial result, and when
the raised error is the only error any fetch can raise (in particular
when exactly one fetch fails), the call fails with exactly that error;
the sibling results that had already succeeded are discarded, never
returned. -/
theorem tree_fetch_error_aborts_whole_call
    (listsub : Nat → Except String (List Nat))
    (detail : Nat → Except String Unit)
    (sched : List Nat → List Nat) (e : String) :
    (∀ (fuel : Nat) (deps : List Nat), FetchFails listsub e fuel deps →
      (∀ l, get_ding_server_depart_treeE listsub sched fuel deps
          ≠ Except.ok l)
      ∧ (∃ e2, get_ding_server_depart_treeE listsub sched fuel deps
          = Except.error e2)
      ∧ ((∀ x, okOrE e (listsub x)) →
          get_ding_server_depart_treeE listsub sched fuel deps
            = Except.error e))
    ∧ (∀ (fuel : Nat) (leaves : List DNode), DetailFails detail e fuel leaves →
      (∀ u, sync_dep_list detail sched fuel leaves ≠ Except.ok u)
      ∧ (∃ e2, sync_dep_list detail sched fuel leaves = Except.error e2)
      ∧ ((∀ x, okOrE e (detail x)) →
          sync_dep_list detail sched fuel leaves = Except.error e))
    ∧ (∀ (fuel : Nat) (deps : List Nat), FetchFails listsub e fuel deps →
      (∀ u, sync_ding_department listsub detail sched fuel deps
          ≠ Except.ok u)
      ∧ ((∀ x, okOrE e (listsub x)) →
          sync_ding_department listsub detail sched fuel deps
            = Except.error e))
    ∧ (∀ (fuel : Nat) (deps : List Nat) (tree : List DNode),
        get_ding_server_depart_treeE listsub sched fuel deps
          = Except.ok tree →
        DetailFails detail e fuel tree →
        (∀ u, sync_ding_department listsub detail sched fuel deps
            ≠ Except.ok u)
        ∧ ((∀ x, okOrE e (detail x)) →
            sync_ding_department listsub detail sched fuel deps
              = Except.error e)) := by
  refine ⟨?_, ?_, ?_, ?_⟩
  · intro fuel deps h
    obtain ⟨e2, he2⟩ := treeE_error_of_fetchFails sched h
    refine ⟨?_, ⟨e2, he2⟩, fun hls => treeE_eq_error_of_fetchFails hls sched h⟩
    intro l hl
    rw [he2] at hl
    cases hl
  · intro fuel leaves h
    obtain ⟨e2, he2⟩ := syncdep_error_of_detailFails sched h
    refine ⟨?_, ⟨e2, he2⟩, fun hdet => syncdep_eq_error_of_detailFails hdet sched h⟩
    intro u hu
    rw [he2] at hu
    cases hu
  · intro fuel deps h
    obtain ⟨e2, he2⟩ := treeE_error_of_fetchFails sched h
    constructor
    · intro u hu
      have hs : sync_ding_department listsub detail sched fuel deps
          = Except.error e2 := by
        simp [sync_ding_department, he2]
      rw [hs] at hu
      cases hu
    · intro hls
      have h3 := treeE_eq_error_of_fetchFails hls sched h
      simp [sync_ding_department, h3]
  · intro fuel deps tree htree h
    obtain ⟨e2, he2⟩ := syncdep_error_of_detailFails sched h
    constructor
    · intro u hu
      have hs : sync_ding_department listsub detail sched fuel deps
          = Except.error e2 := by
        simp [sync_ding_department, htree, he2]
      rw [hs] at hu
      cases hu
    · intro hdet
      have h3 := syncdep_eq_error_of_detailFails hdet sched h
      simp [sync_ding_department, htree, h3]

/-- Witness for claim C4 at concrete inputs: with root 1 whose listing
yields the child 2 and the listing of 2 raising, both the tree fetch and
the whole synchronisation fail with exactly that error; and walking the
concrete one-branch tree whose inner node 3 has a raising detail fetch
fails the walk with exactly that error. -/
theorem tree_fetch_error_aborts_whole_call_witness :
    get_ding_server_depart_treeE failingListsubE creationOrderSched 2 [1]
      = Except.error "boom"
    ∧ sync_dep_list failingDetail creationOrderSched 2 [⟨1, [⟨3, []⟩]⟩]
      = Except.error "dead"
    ∧ sync_ding_department failingListsubE failingDetail creationOrderSched 2 [1]
      = Except.error "boom" := by
  have h := tree_fetch_error_aborts_whole_call failingListsubE failingDetail
    creationOrderSched "boom"
  have hd := tree_fetch_error_aborts_whole_call failingListsubE failingDetail
    creationOrderSched "dead"
  have hff : FetchFails failingListsubE "boom" 2 [1] :=
    .deeper 1 [1] 1 [2] (by decide) rfl (.here 0 [2] 2 (by decide) rfl)
  have hdf : DetailFails failingDetail "dead" 2 [⟨1, [⟨3, []⟩]⟩] :=
    .deeper 1 [⟨1, [⟨3, []⟩]⟩] ⟨1, [⟨3, []⟩]⟩ (List.mem_singleton.mpr rfl) rfl
      (.here 0 [⟨3, []⟩] ⟨3, []⟩ (List.mem_singleton.mpr rfl) rfl)
  have hls : ∀ x, okOrE "boom" (failingListsubE x) := by
    intro x
    match x with
    | 0 => exact Or.inl ⟨[], rfl⟩
    | 1 => exact Or.inl ⟨[2], rfl⟩
    | 2 => exact Or.inr rfl
    | n + 3 => exact Or.inl ⟨[], rfl⟩
  have hdet : ∀ x, okOrE "dead" (failingDetail x) := by
    intro x
    match x with
    | 0 => exact Or.inl ⟨(), rfl⟩
    | 1 => exact Or.inl ⟨(), rfl⟩
    | 2 => exact Or.inl ⟨(), rfl⟩
    | 3 => exact Or.inr rfl
    | n + 4 => exact Or.inl ⟨(), rfl⟩
  exact ⟨(h.1 2 [1] hff).2.2 hls,
    (hd.2.1 2 [⟨1, [⟨3, []⟩]⟩] hdf).2.2 hdet,
    (h.2.2.1 2 [1] hff).2 hls⟩

/-- Counterexample for claim C3: with department 1 (A, children 3 and 4)
and department 2 (B, no children) requested in that order, the schedule
under which the sibling tasks complete in reverse creation order makes the
tree builder return B before A, so the top-level sequence is not in the
originally requested root-id order regardless of completion order. -/
theorem tree_top_level_order_counterexample :
    ((get_ding_server_depart_tree exampleListsub reversedSched 2 [1, 2]).map
        DNode.id) = [2, 1]
    ∧ ((get_ding_server_depart_tree exampleListsub reversedSched 2 [1, 2]).map
        DNode.id) ≠ [1, 2] := by
  constructor
  · rfl
  · decide

/-- Claim C3 as amended: the tree builder returns the top-level nodes in
sibling-task completion order; when the tasks complete in creation order
the result coincides with the sequential build in the originally requested
root-id order at every level, and in particular the A and B example
returns A with children A1, A2 followed by B. -/
theorem tree_creation_order_matches_request_order :
    (∀ (listsub : Nat → List Nat) (fuel : Nat) (deps : List Nat),
      get_ding_server_depart_tree listsub creationOrderSched fuel deps
        = build_tree_seq listsub fuel deps)
    ∧ get_ding_server_depart_tree exampleListsub creationOrderSched 2 [1, 2]
        = [⟨1, [⟨3, []⟩, ⟨4, []⟩]⟩, ⟨2, []⟩] := by
  have hmain : ∀ (listsub : Nat → List Nat) (fuel : Nat) (deps : List Nat),
      get_ding_server_depart_tree listsub creationOrderSched fuel deps
        = build_tree_seq listsub fuel deps := by
    intro listsub fuel
    induction fuel with
    | zero => intro deps; rfl
    | succ n ih =>
      intro deps
      show permuteBy (creationOrderSched deps) _ = _
      rw [show creationOrderSched deps = [] from rfl, permuteBy_creation]
      show deps.map _ = deps.map _
      have harg : (fun d => (⟨d, get_ding_server_depart_tree listsub
            creationOrderSched n (listsub d)⟩ : DNode))
          = fun d => ⟨d, build_tree_seq listsub n (listsub d)⟩ :=
        funext fun d => by rw [ih]
      rw [harg]
  refine ⟨hmain, ?_⟩
  rw [hmain]
  rfl

/-- Counterexample for claim C5: the current-endpoint response that
carries code 5 but no message field makes check_new_response_error raise
(the message lookup fails with a KeyError), although no code/message pair
is present in the response; so the call raising an error is not equivalent
to a code/message pair being present. -/
theorem error_detection_counterexample :
    ¬ ((check_new_response_error ⟨some 5, none⟩ ≠ Except.ok ())
        ↔ ((⟨some 5, none⟩ : NewResponse).code ≠ none
            ∧ (⟨some 5, none⟩ : NewResponse).message ≠ none)) := by
  intro h
  have h2 := h.mp (by intro hco; cases hco)
  exact h2.2 rfl

/-- Claim C5 as amended: for every legacy-endpoint response that carries
its errcode field, the check raises an error if and only if errcode
differs from 0; for every current-endpoint response, the check raises an
error if and only if the code field is present, the message field being
consulted only for the error text; and the token exchange get_token fails
exactly when the provider status code is non-zero, provided the response
carries the access_token and expires_in fields. -/
theorem error_detection_matches_conventions :
    (∀ (r : LegacyResponse) (ec : Int), r.errcode = some ec →
      (check_response_error r = .ok () ↔ ec = 0))
    ∧ (∀ r : NewResponse, check_new_response_error r = .ok () ↔ r.code = none)
    ∧ (∀ (r : GetTokenResponse) (ec : Int) (tok : String) (n : Nat),
        r.errcode = some ec → r.access_token = some tok →
        r.expires_in = some n →
        ((∃ e, get_token r = .error e) ↔ ec ≠ 0)) := by
  refine ⟨?_, ?_, ?_⟩
  · intro r ec h
    rcases Decidable.em (ec = 0) with h0 | h0
    · simp [check_response_error, h, h0]
    · cases hm : r.errmsg with
      | none => simp [check_response_error, h, h0, hm]
      | some m => simp [check_response_error, h, h0, hm]
  · intro r
    cases hc : r.code with
    | none => simp [check_new_response_error, hc]
    | some c =>
      cases hm : r.message with
      | none => simp [check_new_response_error, hc, hm]
      | some m => simp [check_new_response_error, hc, hm]
  · intro r ec tok n h1 h2 h3
    rcases Decidable.em (ec = 0) with h0 | h0
    · simp [get_token, check_response_error, h1, h2, h3, h0]
    · cases hm : r.errmsg with
      | none => simp [get_token, check_response_error, h1, h0, hm]
      | some m => simp [get_token, check_response_error, h1, h0, hm]

/-- Witness for the amended claim C5 at concrete responses: a legacy
response with errcode 0 passes the check, an empty current response passes
the check, and a token response with errcode 40001 fails the exchange. -/
theorem error_detection_matches_conventions_witness :
    (check_response_error ⟨some 0, some "ok"⟩ = .ok () ↔ (0 : Int) = 0)
    ∧ (check_new_response_error ⟨none, none⟩ = .ok ()
        ↔ (⟨none, none⟩ : NewResponse).code = none)
    ∧ ((∃ e, get_token ⟨some 40001, some "invalid credential", some "tok", some 7200⟩
          = .error e) ↔ (40001 : Int) ≠ 0) :=
  ⟨error_detection_matches_conventions.1 ⟨some 0, some "ok"⟩ 0 rfl,
   error_detection_matches_conventions.2.1 ⟨none, none⟩,
   error_detection_matches_conventions.2.2
     ⟨some 40001, some "invalid credential", some "tok", some 7200⟩
     40001 "tok" 7200 rfl rfl rfl⟩

set_option maxRecDepth 100000 in
/-- Claim C6: get_sign computes HMAC-SHA256 with the UTF-8 encoding of the
key as HMAC key and the UTF-8 encoding of the string representation of the
signing input as message, base64-encodes the digest and returns it as a
string; in particular for key secret and message 1234567890 it equals the
fixed HMAC-SHA256-then-base64 reference vector. -/
theorem get_sign_is_hmac_sha256_base64 :
    (∀ data key : String,
      get_sign data key
        = String.mk (base64Encode (hmacSha256 (strUtf8 key) (strUtf8 data))))
    ∧ get_sign "1234567890" "secret"
        = "Bgs+chJF8gBA3xW2542Tm7B7l571zTPfLMBiCBwOp2c=" := by
  exact ⟨fun data key => rfl, by rfl⟩

theorem leadsWith_append (p r : List Char) : leadsWith p (p ++ r) = true := by
  induction p with
  | nil => rfl
  | cons c cs ih => simp [leadsWith, ih]

theorem containsSeg_append (pat u v : List Char)
    (h : leadsWith pat v = true) : containsSeg pat (u ++ v) = true := by
  induction u with
  | nil =>
    cases v with
    | nil => simpa [containsSeg] using h
    | cons c cs => simp [containsSeg, h]
  | cons c cs ih => simp [containsSeg, ih]

theorem seg_token_end (pre lit tok : String)
    (h : lit.data = pre.data ++ ("access_token=" : String).data) :
    containsSeg (("access_token=" ++ tok).data) ((lit ++ tok).data) = true := by
  have hl := leadsWith_append (("access_token=" : String).data ++ tok.data) []
  rw [List.append_nil] at hl
  have hg := containsSeg_append (("access_token=" : String).data ++ tok.data)
    pre.data _ hl
  simp only [String.data_append, h, List.append_assoc]
  exact hg

theorem seg_token_suffix (pre lit tok suf : String)
    (h : lit.data = pre.data ++ ("access_token=" : String).data) :
    containsSeg (("access_token=" ++ tok).data) ((lit ++ tok ++ suf).data) = true := by
  have hl := leadsWith_append (("access_token=" : String).data ++ tok.data) suf.data
  rw [List.append_assoc] at hl
  have hg := containsSeg_append (("access_token=" : String).data ++ tok.data)
    pre.data _ hl
  simp only [String.data_append, h, List.append_assoc]
  exact hg

/-- Claim C7: every authenticated operation of the client attaches the
access token in exactly one of two ways fixed by its endpoint family:
every legacy-base operation passes it as the access_token= query parameter
inside the URL with no token header, and every current-base operation
passes it in the x-acs-dingtalk-access-token header with a URL that never
mentions access_token; no operation mixes or omits them.  The union-id
operation is additionally recorded with its URL built from the union id
alone. -/
theorem token_attachment_split (tok union_id media_type : String) :
    usesQueryToken (get_user_info_by_userid_req tok) tok
    ∧
    usesQueryToken (get_auth_scopes_req tok) tok
    ∧
    usesQueryToken (department_listsubid_req tok) tok
    ∧
    usesQueryToken (department_detail_req tok) tok
    ∧
    usesQueryToken (department_users_req tok) tok
    ∧
    usesQueryToken (upload_media_req tok media_type) tok
    ∧
    usesQueryToken (send_message_req tok) tok
    ∧
    ((get_user_info_by_access_token_req tok union_id).base = .current
      ∧ (get_user_info_by_access_token_req tok union_id).headers
          = [("x-acs-dingtalk-access-token", tok)]
      ∧ (get_user_info_by_access_token_req tok union_id).path
          = "https://api.dingtalk.com/v1.0/contact/users/" ++ union_id)
    ∧
    usesHeaderToken (get_user_info_by_access_token_req tok "me") tok
    ∧
    usesHeaderToken (create_or_update_custom_oa_template_req tok) tok
    ∧
    usesHeaderToken (get_custom_oa_process_code_req tok) tok
    ∧
    usesHeaderToken (delete_custom_oa_template_req tok) tok
    ∧
    usesHeaderToken (create_custom_oa_instance_req tok) tok
    ∧
    usesHeaderToken (update_custom_oa_instance_state_req tok) tok
    ∧
    usesHeaderToken (update_custom_oa_instance_state_batch_req tok) tok
    ∧
    usesHeaderToken (create_custom_oa_task_req tok) tok
    ∧
    usesHeaderToken (get_custom_oa_tasks_req tok) tok
    ∧
    usesHeaderToken (update_custom_oa_task_state_req tok) tok
    ∧
    usesHeaderToken (cancel_custom_oa_tasks_batch_req tok) tok
    ∧
    usesHeaderToken (create_or_update_official_oa_template_req tok) tok
    ∧
    usesHeaderToken (get_official_oa_form_schemas_req tok) tok
    ∧
    usesHeaderToken (get_official_oa_processes_nodes_req tok) tok
    ∧
    usesHeaderToken (create_official_oa_instance_req tok) tok
    ∧
    usesHeaderToken (get_official_oa_instance_id_list_req tok) tok
    ∧
    usesHeaderToken (get_official_oa_instance_detail_req tok) tok
    ∧
    usesHeaderToken (redirect_official_oa_task_req tok) tok
    ∧
    usesHeaderToken (get_official_oa_spaces_infos_req tok) tok
    ∧
    usesHeaderToken (create_official_oa_approve_comment_req tok) tok
    ∧
    usesHeaderToken (execute_official_oa_task_req tok) tok
    ∧
    usesHeaderToken (terminate_official_oa_instance_req tok) tok
    ∧
    usesHeaderToken (get_official_oa_todo_tasks_number_req tok) tok
    ∧
    usesHeaderToken (get_user_official_oa_tasks_req tok) tok
    ∧
    usesHeaderToken (get_user_official_oa_templates_req tok) tok := by
  refine ⟨⟨rfl, rfl, seg_token_end "topapi/v2/user/get?" _ tok (by decide)⟩, ?_⟩
  refine ⟨⟨rfl, rfl, seg_token_end "auth/scopes?" _ tok (by decide)⟩, ?_⟩
  refine ⟨⟨rfl, rfl, seg_token_end "topapi/v2/department/listsubid?" _ tok (by decide)⟩, ?_⟩
  refine ⟨⟨rfl, rfl, seg_token_end "topapi/v2/department/get?" _ tok (by decide)⟩, ?_⟩
  refine ⟨⟨rfl, rfl, seg_token_end "topapi/v2/user/list?" _ tok (by decide)⟩, ?_⟩
  refine ⟨⟨rfl, rfl, seg_token_suffix "media/upload?" _ tok _ (by decide)⟩, ?_⟩
  refine ⟨⟨rfl, rfl, seg_token_end "topapi/message/corpconversation/asyncsend_v2?" _ tok (by decide)⟩, ?_⟩
  refine ⟨⟨rfl, rfl, rfl⟩, ?_⟩
  refine ⟨⟨rfl, rfl, ?_⟩, ?_⟩
  · show containsSeg ("access_token=" : String).data
      ("https://api.dingtalk.com/v1.0/contact/users/" ++ "me" : String).data = false
    decide
  refine ⟨⟨rfl, rfl, ?_⟩, ?_⟩
  · show containsSeg ("access_token=" : String).data ("v1.0/workflow/processCentres/schemas" : String).data = false
    decide
  refine ⟨⟨rfl, rfl, ?_⟩, ?_⟩
  · show containsSeg ("access_token=" : String).data ("/v1.0/workflow/processCentres/schemaNames/processCodes" : String).data = false
    decide
  refine ⟨⟨rfl, rfl, ?_⟩, ?_⟩
  · show containsSeg ("access_token=" : String).data ("/v1.0/workflow/processCentres/schemas" : String).data = false
    decide
  refine ⟨⟨rfl, rfl, ?_⟩, ?_⟩
  · show containsSeg ("access_token=" : String).data ("/v1.0/workflow/processCentres/instances" : String).data = false
    decide
  refine ⟨⟨rfl, rfl, ?_⟩, ?_⟩
  · show containsSeg ("access_token=" : String).data ("/v1.0/workflow/processCentres/instances" : String).data = false
    decide
  refine ⟨⟨rfl, rfl, ?_⟩, ?_⟩
  · show containsSeg ("access_token=" : String).data ("/v1.0/workflow/processCentres/instances/batch" : String).data = false
    decide
  refine ⟨⟨rfl, rfl, ?_⟩, ?_⟩
  · show containsSeg ("access_token=" : String).data ("/v1.0/workflow/processCentres/tasks" : String).data = false
    decide
  refine ⟨⟨rfl, rfl, ?_⟩, ?_⟩
  · show containsSeg ("access_token=" : String).data ("/v1.0/workflow/processCentres/todoTasks" : String).data = false
    decide
  refine ⟨⟨rfl, rfl, ?_⟩, ?_⟩
  · show containsSeg ("access_token=" : String).data ("/v1.0/workflow/processCentres/tasks" : String).data = false
    decide
  refine ⟨⟨rfl, rfl, ?_⟩, ?_⟩
  · show containsSeg ("access_token=" : String).data ("/v1.0/workflow/processCentres/tasks/cancel" : String).data = false
    decide
  refine ⟨⟨rfl, rfl, ?_⟩, ?_⟩
  · show containsSeg ("access_token=" : String).data ("/v1.0/workflow/forms" : String).data = false
    decide
  refine ⟨⟨rfl, rfl, ?_⟩, ?_⟩
  · show containsSeg ("access_token=" : String).data ("/v1.0/workflow/forms/schemas/processCodes" : String).data = false
    decide
  refine ⟨⟨rfl, rfl, ?_⟩, ?_⟩
  · show containsSeg ("access_token=" : String).data ("/v1.0/workflow/processes/forecast" : String).data = false
    decide
  refine ⟨⟨rfl, rfl, ?_⟩, ?_⟩
  · show containsSeg ("access_token=" : String).data ("/v1.0/workflow/processInstances" : String).data = false
    decide
  refine ⟨⟨rfl, rfl, ?_⟩, ?_⟩
  · show containsSeg ("access_token=" : String).data ("/v1.0/workflow/processes/instanceIds/query" : String).data = false
    decide
  refine ⟨⟨rfl, rfl, ?_⟩, ?_⟩
  · show containsSeg ("access_token=" : String).data ("/v1.0/workflow/processInstances" : String).data = false
    decide
  refine ⟨⟨rfl, rfl, ?_⟩, ?_⟩
  · show containsSeg ("access_token=" : String).data ("/v1.0/workflow/tasks/redirect" : String).data = false
    decide
  refine ⟨⟨rfl, rfl, ?_⟩, ?_⟩
  · show containsSeg ("access_token=" : String).data ("/v1.0/workflow/processInstances/spaces/infos/query" : String).data = false
    decide
  refine ⟨⟨rfl, rfl, ?_⟩, ?_⟩
  · show containsSeg ("access_token=" : String).data ("/v1.0/workflow/processInstances/comments" : String).data = false
    decide
  refine ⟨⟨rfl, rfl, ?_⟩, ?_⟩
  · show containsSeg ("access_token=" : String).data ("/v1.0/workflow/processInstances/execute" : String).data = false
    decide
  refine ⟨⟨rfl, rfl, ?_⟩, ?_⟩
  · show containsSeg ("access_token=" : String).data ("/v1.0/workflow/processInstances/terminate" : String).data = false
    decide
  refine ⟨⟨rfl, rfl, ?_⟩, ?_⟩
  · show containsSeg ("access_token=" : String).data ("/v1.0/workflow/processes/todoTasks/numbers" : String).data = false
    decide
  refine ⟨⟨rfl, rfl, ?_⟩, ?_⟩
  · show containsSeg ("access_token=" : String).data ("/v1.0/workflow/processes/userVisibilities/templates" : String).data = false
    decide
  refine ⟨rfl, rfl, ?_⟩
  show containsSeg ("access_token=" : String).data ("/v1.0/workflow/processes/managements/templates" : String).data = false
  decide
